import Mathlib

/-!
Shallow embedding of the translation engine of `pdark.i18n`
(`src/pdark/i18n/__init__.py`), covering: the message-request data model,
the locale fallback strategy, the pattern parser, the compiled message
formatter, type-directed formatter dispatch (string / nested message /
list / number+plural), the catalog with its missing-text strategies, and
the `translate` orchestration with its error-wrapping discipline.

Python values are modelled by the inductive `PyVal`; Python `float` is
modelled by the exact rational value of the IEEE-754 double.  Fallible
Python code is modelled with `Except PyErr`; `I18nException` instances are
represented structurally by the raise site together with the data that the
source interpolates into the exception text, and `raise ... from e`
chaining is an explicit `cause` field.  Unbounded recursion through nested
messages is controlled by a `fuel` parameter: exhausted fuel behaves like
Python's `RecursionError`, an ordinary exception that the `translate`
boundary catches and wraps like any other.
-/

namespace Pdark

/-- A Python `float`, i.e. an IEEE-754 double, represented by its exact
rational value `num / den` (`den` is a power of two, never zero; the
fraction need not be in lowest terms). -/
structure PyFloat where
  num : Int
  den : Nat
deriving DecidableEq, Repr

/-- Python runtime values that can appear as message arguments, option
values or pattern parts.  `vbool` is separate because `type(True)` is
`bool`, while `isinstance(True, int)` still holds; `vfloat` carries the
exact rational value of the double.  `vmsg` is an `I18NMessage` instance
(key, optional preferred locale, positional args, keyword args). -/
inductive PyVal : Type where
  | vstr (s : String)
  | vbool (b : Bool)
  | vint (n : Int)
  | vfloat (q : PyFloat)
  | vlist (items : List PyVal)
  | vtuple (items : List PyVal)
  | vdict (entries : List (String × PyVal))
  | vmsg (key : String) (loc : Option String) (args : List PyVal)
      (kwargs : List (String × PyVal))

/-- `I18NMessage` (`__init__.py` lines 35-61): the message request. -/
structure I18NMessage where
  key : String
  locale : Option String
  args : List PyVal
  kwargs : List (String × PyVal)

/-- View a message request as a Python value (argument position). -/
def PyVal.ofMsg (m : I18NMessage) : PyVal :=
  .vmsg m.key m.locale m.args m.kwargs

/-- `I18NMessage.with_locale` (lines 54-61): copy with a new preferred
locale, the original is untouched. -/
def I18NMessage.withLocale (m : I18NMessage) (locale : Option String) :
    I18NMessage :=
  { key := m.key, locale := locale, args := m.args, kwargs := m.kwargs }

/-- Python runtime types, as used for `type(inst)` keys of the dispatch
cache. -/
inductive PyType : Type where
  | tstr | tbool | tint | tfloat | tlist | ttuple | tdict | tmsg
deriving DecidableEq, Repr

/-- `type(inst)` on the modelled value universe. -/
def PyVal.typeOf : PyVal → PyType
  | .vstr _ => .tstr
  | .vbool _ => .tbool
  | .vint _ => .tint
  | .vfloat _ => .tfloat
  | .vlist _ => .tlist
  | .vtuple _ => .ttuple
  | .vdict _ => .tdict
  | .vmsg _ _ _ _ => .tmsg

/-- `isinstance(inst, str)` (line 141). -/
def isInstStr : PyVal → Bool
  | .vstr _ => true
  | _ => false

/-- `isinstance(inst, I18NMessage)` (line 160). -/
def isInstMsg : PyVal → Bool
  | .vmsg _ _ _ _ => true
  | _ => false

/-- `isinstance(inst, (list, tuple))` (line 215). -/
def isInstListOrTuple : PyVal → Bool
  | .vlist _ => true
  | .vtuple _ => true
  | _ => false

/-- `isinstance(inst, (int, float))` (line 270); Python `bool` is a
subclass of `int`. -/
def isInstNumber : PyVal → Bool
  | .vint _ => true
  | .vbool _ => true
  | .vfloat _ => true
  | _ => false

/-- `isinstance(inst, int)` (line 232); `bool` included. -/
def isInstInt : PyVal → Bool
  | .vint _ => true
  | .vbool _ => true
  | _ => false

/-- The `raise I18nException(...)` sites of the source, each carrying the
data interpolated into the exception message at that site. -/
inductive I18nReason : Type where
  /-- `FailOnMissingTextsStrategy.apply`, line 331. -/
  | missingText (key : String)
  /-- `DefaultFormatterFactory.create_formatter`, line 300. -/
  | noFactory (v : PyVal)
  /-- `TranslationService.translate`, line 445. -/
  | missingFormatter (m : I18NMessage) (locale : String)
  /-- `TranslationService.translate`, line 453 (inner wrap). -/
  | errorFormatting (args : List PyVal) (kwargs : List (String × PyVal))
  /-- `MessageParser.parse`, line 588. -/
  | errorParsing (pattern : PyVal)
  /-- `MessageParser.parse0`, line 609. -/
  | unsupportedPart (part : PyVal)
  /-- `TranslationService.translate`, line 457 (outer wrap). -/
  | errorTranslating (m : I18NMessage) (locale : String)

/-- Python exceptions that the modelled code can raise.  `i18nExc` is the
source's `I18nException` with optional `__cause__` chaining; `unmodelled`
stands for exceptions whose exact payload we do not model (they propagate
like any other exception). -/
inductive PyErr : Type where
  | i18nExc (reason : I18nReason) (cause : Option PyErr)
  | typeError (what : String)
  | keyError (k : String)
  | indexError
  | unmodelled (what : String)

/-- `isinstance(e, I18nException)` — used by the `except I18nException`
clause in `NumberFormatter.get_plural_message` (line 257). -/
def PyErr.isI18n : PyErr → Bool
  | .i18nExc _ _ => true
  | _ => false

/-! ### Python `repr`

`LogMissingTextStrategy.apply` calls `repr(i18n_message)`, which recurses
through `I18NMessage.__repr__` (lines 42-46) and the built-in reprs of
tuples, dicts, strings, ints and bools.  We model `repr` for a printable
subset of strings and leave the rest (floats, strings with quotes or
escapes) as `unmodelled` exceptions. -/

/-- Single-quote character (code 39), used by Python string reprs. -/
def sq : Char := Char.ofNat 39

/-- Strings whose Python repr is just the string between single quotes. -/
def plainReprString (s : String) : Bool :=
  s.toList.all fun c =>
    c.isAlphanum || c = ' ' || c = '.' || c = '_' || c = '-' || c = ','

/-- `repr` of a Python string (printable subset only). -/
def pyReprStr (s : String) : Except PyErr String :=
  if plainReprString s then
    .ok (String.singleton sq ++ s ++ String.singleton sq)
  else
    .error (.unmodelled "repr of a string with special characters")

/-- Assemble a Python tuple repr from element reprs (note the trailing
comma for singletons). -/
def tupleReprOf (rs : List String) : String :=
  match rs with
  | [] => "()"
  | [r] => "(" ++ r ++ ",)"
  | _ => "(" ++ String.intercalate ", " rs ++ ")"

/-- Assemble a Python dict repr from entry reprs. -/
def dictReprOf (rs : List String) : String :=
  "\x7b" ++ String.intercalate ", " rs ++ "\x7d"

/-- Python `repr` of a modelled value.  The `fuel` makes the recursion
through nested containers structural; it is instantiated with a bound on
the nesting depth, so it never runs out (and Python itself raises
`RecursionError` on over-deep reprs). -/
def pyReprF : Nat → PyVal → Except PyErr String
  | 0, _ => .error (.unmodelled "RecursionError")
  | n + 1, v =>
      match v with
      | .vstr s => pyReprStr s
      | .vbool b => .ok (if b then "True" else "False")
      | .vint k => .ok (toString k)
      | .vfloat _ => .error (.unmodelled "repr of a float")
      | .vlist xs => do
          let rs ← xs.mapM (pyReprF n)
          .ok ("[" ++ String.intercalate ", " rs ++ "]")
      | .vtuple xs => do
          let rs ← xs.mapM (pyReprF n)
          .ok (tupleReprOf rs)
      | .vdict es => do
          let rs ← es.mapM fun e => do
            let rk ← pyReprStr e.1
            let rv ← pyReprF n e.2
            pure (rk ++ ": " ++ rv)
          .ok (dictReprOf rs)
      | .vmsg k lo a kw => do
          let ras ← a.mapM (pyReprF n)
          let rkws ← kw.mapM fun e => do
            let rk ← pyReprStr e.1
            let rv ← pyReprF n e.2
            pure (rk ++ ": " ++ rv)
          match lo with
          | none =>
              .ok ("I18NMessage(" ++ k ++ ", " ++ tupleReprOf ras ++ ", " ++
                dictReprOf rkws ++ ")")
          | some l => do
              let rl ← pyReprStr l
              .ok ("I18NMessage(" ++ k ++ ", locale=" ++ rl ++ ", " ++
                tupleReprOf ras ++ ", " ++ dictReprOf rkws ++ ")")

/-- Python `repr`, with Python's default recursion limit (1000) as the
depth budget: `repr` of deeper structures raises `RecursionError`. -/
def pyRepr (v : PyVal) : Except PyErr String :=
  pyReprF 1000 v

/-- `repr` of an `I18NMessage` (its `__repr__`, lines 42-46). -/
def reprMsg (m : I18NMessage) : Except PyErr String :=
  pyRepr (PyVal.ofMsg m)

/-! ### Locale fallback strategy (`LocaleFallbackStrategy`, lines 459-481)

`split_locale` appends the locale and then repeatedly strips everything
from the last `_` on, until no `_` remains.  `locale.rfind` followed by
slicing is modelled by `beforeLastUnderscore` on character lists. -/

/-- The part of `cs` before its last underscore (`locale[:pos]` with
`pos = locale.rfind(sep)`), or `none` when there is no underscore. -/
def beforeLastUnderscore : List Char → Option (List Char)
  | [] => none
  | c :: rest =>
      match beforeLastUnderscore rest with
      | some tail => some (c :: tail)
      | none => if c = '_' then some [] else none

/-- The `while` loop of `split_locale` (lines 473-481) on one locale:
emit the locale, then continue with the part before the last underscore.
The `fuel` argument is only an iteration bound making the recursion
structural; every step strictly shortens the locale
(`beforeLastUnderscore_length`), so any fuel above the length is enough
(`splitLocaleGo_fuel`), and the loop itself never exits early. -/
def splitLocaleGo : Nat → List Char → List (List Char)
  | 0, _ => []
  | n + 1, cs =>
      cs ::
        match beforeLastUnderscore cs with
        | none => []
        | some pre => splitLocaleGo n pre

/-- `split_locale(result, locale)`: the `locale is None` guard skips the
loop entirely. -/
def splitLocale : Option String → List String
  | none => []
  | some s =>
      (splitLocaleGo (s.toList.length + 1) s.toList).map fun cs => String.mk cs

/-- `LocaleFallbackStrategy.apply` (lines 467-471): truncations of the
requested locale, then truncations of the default locale. -/
def LocaleFallbackStrategy.apply (default requested : Option String) :
    List String :=
  splitLocale requested ++ splitLocale default

/-! ### Fragments and the compiled message formatter (lines 483-567) -/

/-- `IndexRef` / `NameRef` (lines 515-547).  An integer `arg` builds an
`IndexRef`; any other value becomes the name of a `NameRef`. -/
inductive ArgRef : Type where
  | byIndex (i : Int)
  | byName (n : PyVal)

/-- First-match lookup in a dict modelled as an association list. -/
def dictLookup (d : List (String × PyVal)) (k : String) : Option PyVal :=
  (d.find? fun p => p.1 == k).map fun p => p.2

/-- Python list indexing `args[i]`, with negative indices counting from
the end and `IndexError` when out of range. -/
def pyListGet (xs : List PyVal) (i : Int) : Except PyErr PyVal :=
  let n : Int := xs.length
  let j : Int := if i < 0 then i + n else i
  if 0 ≤ j ∧ j < n then .ok (xs.getD j.toNat (.vint 0))
  else .error .indexError

/-- `IndexRef.get` / `NameRef.get` (lines 520-521, 543-544). -/
def ArgRef.get (ref : ArgRef) (args : List PyVal)
    (kwargs : List (String × PyVal)) : Except PyErr PyVal :=
  match ref with
  | .byIndex i => pyListGet args i
  | .byName n =>
      match n with
      | .vstr s =>
          match dictLookup kwargs s with
          | some v => .ok v
          | none => .error (.keyError s)
      | _ => .error (.keyError "non-string argument name")

/-- `TextFragment` / `ArgumentFragment` (lines 485-513). -/
inductive Frag : Type where
  | ftext (s : String)
  | farg (ref : ArgRef) (options : List (String × PyVal))

/-- `MessageFormatter` (lines 549-563): the compiled fragment sequence. -/
structure MessageFormatter where
  fragments : List Frag

/-- The two shapes in which the source passes `fragments` to
`MessageFormatter.__init__`: a genuine list (from the parser), or a single
`TextFragment` (from `text_message_formatter`, line 567). -/
inductive FragmentsArg : Type where
  | flist (l : List Frag)
  | fsingle (f : Frag)

/-- `MessageFormatter.__init__` (lines 551-552) does
`self.fragments = tuple(fragments)`.  `tuple` of a single `TextFragment`
raises `TypeError` because fragments are not iterable. -/
def mkMessageFormatter : FragmentsArg → Except PyErr MessageFormatter
  | .flist l => .ok ⟨l⟩
  | .fsingle _ => .error (.typeError "TextFragment object is not iterable")

/-- `text_message_formatter` (lines 565-567): passes a bare `TextFragment`
— not a list — to the `MessageFormatter` constructor. -/
def text_message_formatter (text : String) : Except PyErr MessageFormatter :=
  mkMessageFormatter (.fsingle (.ftext text))

/-! ### Missing-text strategies (lines 305-331) -/

/-- The two concrete `MissingTextStrategy` classes. -/
inductive MissingTextStrategy : Type where
  | failFast
  | logAndSub

/-- `FailOnMissingTextsStrategy.apply` (lines 330-331) and
`LogMissingTextStrategy.apply` (lines 319-321).  The log-and-substitute
variant logs (no effect on the value) and returns
`text_message_formatter(repr(i18n_message))`. -/
def MissingTextStrategy.applyS (st : MissingTextStrategy)
    (m : I18NMessage) (_locale : String) : Except PyErr MessageFormatter :=
  match st with
  | .failFast => .error (.i18nExc (.missingText m.key) none)
  | .logAndSub => do
      let r ← reprMsg m
      text_message_formatter r

/-! ### Pattern parser (`MessageParser`, lines 569-609) -/

/-- One step of `parse0` (lines 592-609) on a single pattern part. -/
def parsePart (part : PyVal) : Except PyErr Frag :=
  match part with
  | .vstr s => .ok (.ftext s)
  | .vdict d =>
      match dictLookup d "arg" with
      | none => .error (.keyError "arg")
      | some a =>
          let options := d.filter fun p => p.1 ≠ "arg"
          let ref : ArgRef :=
            match a with
            | .vint i => .byIndex i
            | .vbool b => .byIndex (if b then 1 else 0)
            | x => .byName x
          .ok (.farg ref options)
  | _ => .error (.i18nExc (.unsupportedPart part) none)

/-- `parse0` over the part sequence, in order, aborting at the first
failing part. -/
def parse0 : List PyVal → Except PyErr (List Frag)
  | [] => .ok []
  | p :: ps => do
      let f ← parsePart p
      let fs ← parse0 ps
      .ok (f :: fs)

/-- `MessageParser.parse` (lines 579-590): a plain string is a single
text fragment; otherwise the pattern is iterated and any failure is
wrapped as `I18nException('Error parsing ...') from e`.  Iterating a
non-sequence raises `TypeError` inside the same `try`; iterating a dict
yields its keys. -/
def parse (pattern : PyVal) : Except PyErr MessageFormatter :=
  match pattern with
  | .vstr s => .ok ⟨[.ftext s]⟩
  | p =>
      let parts : Except PyErr (List PyVal) :=
        match p with
        | .vlist xs => .ok xs
        | .vtuple xs => .ok xs
        | .vdict es => .ok (es.map fun e => .vstr e.1)
        | _ => .error (.typeError "pattern object is not iterable")
      match (do parse0 (← parts) : Except PyErr (List Frag)) with
      | .ok frags => .ok ⟨frags⟩
      | .error e => .error (.i18nExc (.errorParsing p) (some e))

/-! ### Catalog (`SimpleMessageProvider`, lines 354-400) -/

/-- The `pattern_cache`: entries `(locale, key, compiled formatter)`,
newest first (dict overwrite = first match wins on the newest entry). -/
def Catalog : Type := List (String × String × MessageFormatter)

/-- `register_message` (lines 374-377): parse now, store under
`(locale, key)`. -/
def registerMessage (cat : Catalog) (key locale : String)
    (pattern : PyVal) : Except PyErr Catalog :=
  match parse pattern with
  | .ok f => .ok (((locale, key, f) : String × String × MessageFormatter) :: cat)
  | .error e => .error e

/-- `lookup_single_locale` (lines 390-400). -/
def lookupSingleLocale (cat : Catalog) (key locale : String) :
    Option MessageFormatter :=
  ((cat : List (String × String × MessageFormatter)).find? fun e =>
      e.1 == locale && e.2.1 == key).map fun e => e.2.2

/-- Register a whole list of `(key, locale, pattern)` entries, in order. -/
def catalogOfEntries (entries : List (String × String × PyVal)) :
    Except PyErr Catalog :=
  entries.foldlM (fun cat e => registerMessage cat e.1 e.2.1 e.2.2)
    ([] : List (String × String × MessageFormatter))

/-- Convenience: the catalog of a list of entries that all parse. -/
def catalogOf (entries : List (String × String × PyVal)) : Catalog :=
  match catalogOfEntries entries with
  | .ok c => c
  | .error _ => ([] : List (String × String × MessageFormatter))

/-- The state of a `TranslationService` wired with default collaborators:
a `SimpleMessageProvider` sharing the service's default locale and a
default-built `LocaleFallbackStrategy` (lines 359-372, 407-431). -/
structure Service where
  default_locale : String
  catalog : Catalog
  strategy : MissingTextStrategy

/-- `SimpleMessageProvider.lookup_message` (lines 379-388): search the
fallback chain, else invoke the missing-text strategy.  The `Option`
result feeds `translate`'s `formatter is None` check; the strategies
either return a formatter or raise, never `None`. -/
def lookup_message (svc : Service) (m : I18NMessage) (locale : String) :
    Except PyErr (Option MessageFormatter) :=
  let chain := LocaleFallbackStrategy.apply (some svc.default_locale)
    (some locale)
  match chain.findSome? (fun lc => lookupSingleLocale svc.catalog m.key lc) with
  | some f => .ok (some f)
  | none =>
      match svc.strategy.applyS m locale with
      | .ok f => .ok (some f)
      | .error e => .error e

/-! ### Formatter dispatch: the four built-in factories (lines 275-300)

`DefaultFormatterFactory` scans `StringFormatterFactory`,
`I18nMessageFormatterFactory`, `ListFormatterFactory`,
`NumberFormatterFactory` in that order.  The per-type memoization cache is
modelled (and proved observationally transparent for type-determined
`can_handle` predicates) separately below; the rendering pipeline uses the
first-match scan the cache memoizes. -/

/-- The four built-in factory objects, as delegate identities. -/
inductive BuiltinDelegate : Type where
  | strD | msgD | listD | numD
deriving DecidableEq, Repr

/-- The `can_handle` methods (lines 140-141, 159-160, 214-215, 269-270). -/
def builtinCanHandle : BuiltinDelegate → PyVal → Bool
  | .strD, v => isInstStr v
  | .msgD, v => isInstMsg v
  | .listD, v => isInstListOrTuple v
  | .numD, v => isInstNumber v

/-- `self.delegates` of `DefaultFormatterFactory.__init__` (lines
279-284), in source order. -/
def builtinDelegates : List BuiltinDelegate :=
  [.strD, .msgD, .listD, .numD]

/-- The well-known messages constructed by `ListFormatter.__init__`
(lines 172-175). -/
def emptyMessage : I18NMessage := ⟨"pdark.i18n.list.empty", none, [], []⟩

/-- `ListFormatter.comma_message`. -/
def commaMessage : I18NMessage := ⟨"pdark.i18n.list.comma", none, [], []⟩

/-- `ListFormatter.and_message`. -/
def andMessage : I18NMessage := ⟨"pdark.i18n.list.and", none, [], []⟩

/-- `ListFormatter.or_message`. -/
def orMessage : I18NMessage := ⟨"pdark.i18n.list.or", none, [], []⟩

/-- The numeric-spec messages of `NumberFormatter.__init__` (lines
228-229). -/
def intMessage : I18NMessage := ⟨"pdark.i18n.number.int", none, [], []⟩

/-- `NumberFormatter.float_message`. -/
def floatMessage : I18NMessage := ⟨"pdark.i18n.number.float", none, [], []⟩

/-- `self.options.get('type') == 'or'` in `get_tail_joiner` (lines
204-208).  Comparing an `I18NMessage` option value with `==` calls the
broken `I18NMessage.__eq__` and raises `TypeError`. -/
def typeOptionIsOr (options : List (String × PyVal)) : Except PyErr Bool :=
  match dictLookup options "type" with
  | none => .ok false
  | some (.vstr s) => .ok (s == "or")
  | some (.vmsg _ _ _ _) =>
      .error (.typeError "eq takes 1 positional argument but 2 were given")
  | some _ => .ok false

/-! ### Number formatting (`NumberFormatter`, lines 220-263) -/

/-- Truncation toward zero, as `int()` applied to a float by `%d`. -/
def pyTruncToInt (q : PyFloat) : Int := Int.tdiv q.num (q.den : Int)

/-- Two-digit zero-padded rendering of `n < 100`. -/
def pad2 (n : Nat) : String :=
  if n < 10 then "0" ++ toString n else toString n

/-- `'%.2f' % (a / den)` for a non-negative value: round `100 * a / den`
to the nearest integer with ties to even (the rounding `%.2f` applies to
the exact value of the double), then print with two decimals. -/
def fmt2Nat (a den : Nat) : String :=
  let t := 100 * a
  let lo := t / den
  let rem2 := 2 * (t % den)
  let n := if rem2 < den then lo
    else if den < rem2 then lo + 1
    else if lo % 2 = 0 then lo else lo + 1
  toString (n / 100) ++ "." ++ pad2 (n % 100)

/-- `'%.2f' % q`. -/
def fmt2 (q : PyFloat) : String :=
  if q.num < 0 then "-" ++ fmt2Nat q.num.natAbs q.den
  else fmt2Nat q.num.toNat q.den

/-- `spec % inst` (lines 238 and 250) for the numeric format specs the
engine is used with; other spec strings are left unmodelled and behave as
an exception (the claims pin the registered specs to these two). -/
def pyMod (spec : String) (v : PyVal) : Except PyErr String :=
  if spec = "%d" then
    match v with
    | .vint n => .ok (toString n)
    | .vbool b => .ok (if b then "1" else "0")
    | .vfloat q => .ok (toString (pyTruncToInt q))
    | _ => .error (.typeError "%d format: a number is required")
  else if spec = "%.2f" then
    match v with
    | .vfloat q => .ok (fmt2 q)
    | .vint n => .ok (fmt2 ⟨n, 1⟩)
    | .vbool b => .ok (fmt2 ⟨if b then 1 else 0, 1⟩)
    | _ => .error (.typeError "must be real number")
  else .error (.unmodelled ("format spec " ++ spec))

/-- Python numeric equality `inst == k` for the integer literals of the
plural branch (lines 240-248); `True == 1`, `0.0 == 0` hold. -/
def numEqInt (v : PyVal) (k : Int) : Bool :=
  match v with
  | .vint n => n == k
  | .vbool b => (if b then (1 : Int) else 0) == k
  | .vfloat q => q.num == k * (q.den : Int)
  | _ => false

/-- The plural tag selected by the `if inst == 0 / 1 / 2 / else` chain
(lines 240-248); each branch passes the corresponding literal tag to
`get_plural_message`. -/
def plural_tag (v : PyVal) : String :=
  if numEqInt v 0 then "zero"
  else if numEqInt v 1 then "one"
  else if numEqInt v 2 then "two"
  else "other"

/-- A translation callback: `self.ts.translate` as seen by the formatter
objects, with the recursion knot tied by `translate` below. -/
def Translator : Type := I18NMessage → Option String → Except PyErr String

/-- `NumberFormatter.get_plural_message` (lines 252-263): always look up
`base + '.one'` first; on `I18nException`, re-raise for tag `'other'`,
otherwise retry with `base + '.other'`.  A non-string base fails the
string concatenation with `TypeError` before any lookup. -/
def get_plural_message (tr : Translator) (locale : String)
    (pluralBase : PyVal) (tag : String) : Except PyErr String :=
  match pluralBase with
  | .vstr b =>
      match tr ⟨b ++ ".one", none, [], []⟩ (some locale) with
      | .ok t => .ok t
      | .error e =>
          if e.isI18n then
            if tag = "other" then .error e
            else tr ⟨b ++ ".other", none, [], []⟩ (some locale)
          else .error e
  | _ => .error (.typeError "can only concatenate str to str")

/-- `NumberFormatter.format` (lines 231-250): translate the numeric spec
message, then either apply it directly or append the plural text. -/
def numberFormat (tr : Translator) (locale : String)
    (plural : Option PyVal) (v : PyVal) : Except PyErr String := do
  let message := if isInstInt v then intMessage else floatMessage
  let spec ← tr message (some locale)
  match plural with
  | none => pyMod spec v
  | some pb => do
      let text ← get_plural_message tr locale pb (plural_tag v)
      let base ← pyMod spec v
      .ok (base ++ " " ++ text)

/-- Keyword binding of `NumberFormatter.__init__(self, ts, locale,
plural=None)` against `**options`: any key other than `plural` raises
`TypeError`. -/
def numberFormatterOptions (options : List (String × PyVal)) :
    Except PyErr (Option PyVal) :=
  if options.all (fun p => p.1 == "plural") then .ok (dictLookup options "plural")
  else .error (.typeError "unexpected keyword argument")

/-- The list comprehension `[process(item) for item in inst]` (line 186):
apply `disp` to every item in order, aborting at the first failure. -/
def processWith (disp : PyVal → Except PyErr String) :
    List PyVal → Except PyErr (List String)
  | [] => .ok []
  | it :: rest => do
      let s ← disp it
      let rs ← processWith disp rest
      .ok (s :: rs)

/-- `ListFormatter.format` (lines 177-208), parameterized by the `process`
closure (`disp`, which dispatches one item with empty options, lines
181-184) and the owning service's translate (`tr`). -/
def listFormatWith (disp : PyVal → Except PyErr String) (tr : Translator)
    (locale : String) (options : List (String × PyVal))
    (items : List PyVal) : Except PyErr String :=
  if items.length = 0 then tr emptyMessage (some locale)
  else do
    let asStrings ← processWith disp items
    if items.length = 1 then
      .ok (asStrings.headD "")
    else do
      let tail := asStrings.getLastD ""
      let head := asStrings.dropLast
      let headText ←
        if head.length > 1 then do
          let joiner ← tr commaMessage (some locale)
          pure (String.intercalate joiner head)
        else
          pure (head.headD "")
      let isOr ← typeOptionIsOr options
      let joiner ← tr (if isOr then orMessage else andMessage) (some locale)
      .ok (headText ++ joiner ++ tail)

/-- `DefaultFormatterFactory.create_formatter` (lines 290-300) followed by
`formatter.format(value)`: select the first built-in factory whose
`can_handle` accepts the value, build its formatter with the options, and
format.  `StringFormatterFactory.create_formatter(self, locale)` and
`I18nMessageFormatterFactory.create_formatter(self, locale)` accept no
keyword options, so a non-empty options dict raises `TypeError` there.
`I18nMessageFormatter.format` (lines 152-153) calls
`self.ts.translate(inst, self.locale)` — the ambient locale is passed as
the explicit locale argument.  The `fuel` is a structural bound on the
nesting depth of list values (Python's stack depth); running out behaves
like `RecursionError`. -/
def dispatchValue : Nat → Translator → String → PyVal →
    List (String × PyVal) → Except PyErr String
  | 0, _, _, _, _ => .error (.unmodelled "RecursionError")
  | fuel + 1, tr, locale, v, options =>
      match builtinDelegates.find? (fun d => builtinCanHandle d v) with
      | none => .error (.i18nExc (.noFactory v) none)
      | some .strD =>
          if options.isEmpty then
            match v with
            | .vstr s => .ok s
            | _ => .error (.unmodelled "string formatter on a non-string")
          else .error (.typeError "create_formatter got an unexpected keyword argument")
      | some .msgD =>
          if options.isEmpty then
            match v with
            | .vmsg k lo a kw => tr ⟨k, lo, a, kw⟩ (some locale)
            | _ => .error (.unmodelled "message formatter on a non-message")
          else .error (.typeError "create_formatter got an unexpected keyword argument")
      | some .listD =>
          match v with
          | .vlist items =>
              listFormatWith (fun it => dispatchValue fuel tr locale it [])
                tr locale options items
          | .vtuple items =>
              listFormatWith (fun it => dispatchValue fuel tr locale it [])
                tr locale options items
          | _ => .error (.unmodelled "list formatter on a non-sequence")
      | some .numD => do
          let plural ← numberFormatterOptions options
          numberFormat tr locale plural v

/-! ### Fragment rendering (lines 485-560) -/

/-- `TextFragment.append_to` / `ArgumentFragment.append_to` (lines
490-491, 501-507): the text a fragment contributes to the buffer. -/
def appendFrag (fuel : Nat) (tr : Translator) (locale : String)
    (args : List PyVal) (kwargs : List (String × PyVal)) :
    Frag → Except PyErr String
  | .ftext s => .ok s
  | .farg ref options => do
      let value ← ref.get args kwargs
      dispatchValue fuel tr locale value options

/-- The fragment loop of `MessageFormatter.format` (lines 554-560); the
`StringIO` buffer is string concatenation. -/
def formatFrags (fuel : Nat) (tr : Translator) (locale : String)
    (args : List PyVal) (kwargs : List (String × PyVal)) :
    List Frag → Except PyErr String
  | [] => .ok ""
  | f :: rest => do
      let s ← appendFrag fuel tr locale args kwargs f
      let t ← formatFrags fuel tr locale args kwargs rest
      .ok (s ++ t)

/-- `MessageFormatter.format(locale, args, kwargs)`. -/
def MessageFormatter.formatM (f : MessageFormatter) (fuel : Nat)
    (tr : Translator) (locale : String) (args : List PyVal)
    (kwargs : List (String × PyVal)) : Except PyErr String :=
  formatFrags fuel tr locale args kwargs f.fragments

/-! ### `TranslationService.translate` (lines 433-457) -/

/-- The locale resolution at the top of `translate` (lines 437-441):
explicit argument, else the request's preferred locale, else the
service's default locale. -/
def effectiveLocale (svc : Service) (m : I18NMessage)
    (loc : Option String) : String :=
  loc.getD (m.locale.getD svc.default_locale)

/-- The body of the outer `try` of `translate` after locale resolution:
catalog lookup, `None` check, and the inner `try` that wraps formatting
failures into `I18nException('Error formatting ...') from e`.  The
nested-message recursion is supplied as the callback `tr`, and `fuel` is
the stack budget handed to fragment rendering. -/
def translateStep (tr : Translator) (fuel : Nat) (svc : Service)
    (m : I18NMessage) (locale : String) : Except PyErr String :=
  match lookup_message svc m locale with
  | .error e => .error e
  | .ok none => .error (.i18nExc (.missingFormatter m locale) none)
  | .ok (some f) =>
      match f.formatM fuel tr locale m.args m.kwargs with
      | .ok s => .ok s
      | .error e =>
          .error (.i18nExc (.errorFormatting m.args m.kwargs) (some e))

/-- The `except Exception` handler of `translate` (lines 456-457): wrap
any failure of the body into
`I18nException('Error translating ...') from e`. -/
def wrapTranslate (m : I18NMessage) (locale : String) :
    Except PyErr String → Except PyErr String
  | .ok s => .ok s
  | .error e => .error (.i18nExc (.errorTranslating m locale) (some e))

/-- `TranslationService.translate` (lines 433-457): resolve the locale,
run the body, and wrap any failure through `wrapTranslate`.  `fuel`
bounds the recursion through nested messages and nested lists (Python's
stack depth); exhaustion behaves like Python's `RecursionError`, an
ordinary exception that every `translate` frame on the way out catches
and wraps like any other failure. -/
def translate : Nat → Service → I18NMessage → Option String →
    Except PyErr String
  | fuel, svc, m, loc =>
      let locale := effectiveLocale svc m loc
      wrapTranslate m locale
        (match fuel with
          | 0 => .error (.unmodelled "RecursionError")
          | n + 1 =>
              translateStep (fun m2 l2 => translate n svc m2 l2) n svc m locale)

/-! ### The dispatch cache (`DefaultFormatterFactory`, lines 275-300)

The rendering pipeline above uses the first-match scan directly; here the
memoizing cache and the `register` extension point are modelled over an
abstract delegate type `δ` (delegate object identities) with a
`can_handle` method table, and the cache is proved observationally
transparent whenever every `can_handle` is determined by the value's
runtime type — as all four built-ins are. -/

/-- The mutable state of a `DefaultFormatterFactory`: the ordered
delegate list and the per-type cache (`self.delegates`, `self.cache`). -/
structure FactoryState (δ : Type) where
  delegates : List δ
  cache : List (PyType × δ)

/-- `self.cache.get(type(inst))`. -/
def cacheGet {δ : Type} (cache : List (PyType × δ)) (t : PyType) :
    Option δ :=
  (cache.find? fun p => p.1 == t).map fun p => p.2

/-- `DefaultFormatterFactory.register(*delegates)` (lines 287-288):
append, built-ins stay in front. -/
def FactoryState.registerExt {δ : Type} (s : FactoryState δ)
    (ds : List δ) : FactoryState δ :=
  ⟨s.delegates ++ ds, s.cache⟩

/-- The factory-selection part of
`DefaultFormatterFactory.create_formatter` (lines 290-300): consult the
cache, else scan `delegates` for the first `can_handle` hit and memoize
it; `none` models the `raise I18nException('No factory can handle ...')`
path. -/
def selectFactory {δ : Type} (canH : δ → PyVal → Bool)
    (s : FactoryState δ) (v : PyVal) : Option δ × FactoryState δ :=
  match cacheGet s.cache v.typeOf with
  | some d => (some d, s)
  | none =>
      match s.delegates.find? (fun d => canH d v) with
      | some d => (some d, ⟨s.delegates, (v.typeOf, d) :: s.cache⟩)
      | none => (none, s)

/-- `DefaultFormatterFactory.__init__` (lines 277-285) with the built-in
delegates and an empty cache. -/
def initialFactoryState : FactoryState BuiltinDelegate :=
  ⟨builtinDelegates, []⟩

/-- A `can_handle` table is type-determined when it only inspects the
runtime type of the value, as `isinstance`-based predicates do. -/
def TypeDetermined {δ : Type} (canH : δ → PyVal → Bool) : Prop :=
  ∀ d v w, v.typeOf = w.typeOf → canH d v = canH d w

/-- Cache coherence: every memoized entry is the first-match scan result
for every value of its type. -/
def CacheCoherent {δ : Type} (canH : δ → PyVal → Bool)
    (s : FactoryState δ) : Prop :=
  ∀ t d, (t, d) ∈ s.cache →
    ∀ v : PyVal, v.typeOf = t → s.delegates.find? (fun e => canH e v) = some d

/-! ### `I18NMessage.__eq__` (lines 48-52)

The method is declared `def __eq__(self):` — the comparand parameter is
missing, so evaluating `m1 == m2` calls it with two positional arguments
against a one-parameter signature and raises `TypeError` before the body
(which reads the unbound name `other`) could run. -/

/-- The parameter list of `I18NMessage.__eq__` as written (line 48). -/
def eqMethodParams : List String := ["self"]

/-- Evaluating `m == other`: Python binds the two positional arguments
`(m, other)` against `eqMethodParams`. -/
def I18NMessage.pyEq (m other : I18NMessage) : Except PyErr Bool :=
  if 2 ≤ eqMethodParams.length then
    -- the body would then read the unbound name `other` (a NameError);
    -- `m` and `other` themselves are not inspected before that
    let _ := m
    let _ := other
    .error (.unmodelled "NameError: name other is not defined")
  else
    .error (.typeError "eq takes 1 positional argument but 2 were given")

/-! ### Python float literals of the test suite (`test_basics.py`)

A Python float literal denotes the IEEE-754 double nearest to it; these
are the exact rational values of the literals exercised by the spec's
number-formatting examples (numerator / 2^51 as reported by
`fractions.Fraction`). -/

/-- The double `3.1415` (slightly below the decimal 3.1415); the
denominator is `2 ^ 51`. -/
def pyFloat_3_1415 : PyFloat := ⟨7074029114692207, 2251799813685248⟩

/-- The double `3.145` (slightly above the decimal 3.145); the
denominator is `2 ^ 51`. -/
def pyFloat_3_145 : PyFloat := ⟨7081910414040105, 2251799813685248⟩

/-- The double `0.0`. -/
def pyFloat_0 : PyFloat := ⟨0, 1⟩

/-! ### Specification-side formulation of the fallback chain (§4.7, §8)

The spec describes the chain as "successive `_`-truncations from most to
least specific".  Formulated independently of the `rfind` loop: split the
locale at every underscore and emit the joins of the first `k` components
for `k` from all components down to one. -/

/-- The successive `_`-truncations of a locale, most specific first. -/
def specTruncations (s : String) : List String :=
  let comps := s.toList.splitOn '_'
  (List.range comps.length).reverse.map fun k =>
    String.mk (List.intercalate ['_'] (comps.take (k + 1)))

/-! ### Type-level view of the built-in `can_handle` predicates -/

/-- What each built-in `can_handle` answers, as a function of the value's
runtime type only (the `isinstance` checks inspect nothing else). -/
def builtinCanType : BuiltinDelegate → PyType → Bool
  | .strD, t => t == .tstr
  | .msgD, t => t == .tmsg
  | .listD, t => t == .tlist || t == .ttuple
  | .numD, t => t == .tint || t == .tbool || t == .tfloat

/-! ### Concrete fixtures used by the witnesses

`basicEntries` mirrors the catalog registered by `test_basics.py`
(`TestSimple.setUp`). -/

/-- The `(key, locale, pattern)` registrations of `test_basics.py`. -/
def basicEntries : List (String × String × PyVal) := [
  ("test_basics.color", "en", .vstr "colour"),
  ("test_basics.color", "en_US", .vstr "color"),
  ("test_basics.hello", "en",
    .vlist [.vstr "Hello, ", .vdict [("arg", .vstr "name")], .vstr "."]),
  ("pdark.i18n.list.and", "en", .vstr " and "),
  ("pdark.i18n.list.and", "de_DE", .vstr " und "),
  ("pdark.i18n.list.or", "en", .vstr " or "),
  ("pdark.i18n.list.or", "de_DE", .vstr " oder "),
  ("pdark.i18n.list.comma", "en", .vstr ", "),
  ("pdark.i18n.list.empty", "en", .vstr ""),
  ("test_basics.and_list", "en", .vlist [.vdict [("arg", .vstr "items")]]),
  ("test_basics.or_list", "en",
    .vlist [.vdict [("arg", .vstr "items"), ("type", .vstr "or")]]),
  ("test_basics.number", "en", .vlist [.vdict [("arg", .vstr "n")]]),
  ("pdark.i18n.number.int", "en", .vstr "%d"),
  ("pdark.i18n.number.float", "en", .vstr "%.2f"),
  ("test_basics.plural.one", "en", .vstr "house"),
  ("test_basics.plural.other", "en", .vstr "houses"),
  ("test_basics.plural", "en",
    .vlist [.vdict [("arg", .vstr "n"), ("plural", .vstr "test_basics.plural")]])]

/-- The compiled catalog of `test_basics.py`. -/
def basicCatalog : Catalog := catalogOf basicEntries

/-- The service of `test_basics.py` (fail-fast missing-text strategy,
default locale `en_US`). -/
def svcBasic : Service := ⟨"en_US", basicCatalog, .failFast⟩

/-- The same service with the log-and-substitute strategy. -/
def svcBasicLog : Service := ⟨"en_US", basicCatalog, .logAndSub⟩

/-- `svcBasic.translate` with an ample stack budget, as the callback the
formatters receive. -/
def trBasic : Translator := fun m2 l2 => translate 6 svcBasic m2 l2

/-- Item dispatch at locale `en` against `svcBasic`, as the `process`
closure of `ListFormatter.format`. -/
def dispBasic : PyVal → Except PyErr String :=
  fun it => dispatchValue 6 trBasic "en" it []

/-- Service for the nested-locale scenario: `greet` references argument
`name`; `inner` has different texts at `en` and `de`. -/
def svcNested : Service :=
  ⟨"en",
    catalogOf [
      ("greet", "en", .vlist [.vdict [("arg", .vstr "name")]]),
      ("inner", "en", .vstr "HELLO-EN"),
      ("inner", "de", .vstr "HALLO-DE")],
    .failFast⟩

/-- A `greet` request whose `name` argument is an `inner` request carrying
its own preferred locale `de`. -/
def msgNested : I18NMessage :=
  ⟨"greet", none, [], [("name", .vmsg "inner" (some "de") [] [])]⟩

/-- Service where the plural base `pl` has only `pl.other` registered
(`pl.one` is missing), for the plural re-raise/retry paths. -/
def svcPluralOther : Service :=
  ⟨"en", catalogOf [("pl.other", "en", .vstr "things")], .failFast⟩

/-- Its translate callback. -/
def trPluralOther : Translator := fun m2 l2 => translate 4 svcPluralOther m2 l2

/-- Delegate identities for the cache witness: the four built-ins plus
numbered extension factories. -/
def sumCanH : Sum BuiltinDelegate Nat → PyVal → Bool
  | .inl b, v => builtinCanHandle b v
  | .inr _, v => v.typeOf == .tdict

/-- A factory state with the built-ins first, one registered extension,
and an empty cache. -/
def stateEmptyCache : FactoryState (Sum BuiltinDelegate Nat) :=
  ⟨[.inl .strD, .inl .msgD, .inl .listD, .inl .numD, .inr 0], []⟩

/-- A factory state whose cache already resolved `str` to the string
factory. -/
def stateStrCached : FactoryState (Sum BuiltinDelegate Nat) :=
  ⟨[.inl .strD, .inl .msgD, .inl .listD, .inl .numD, .inr 0],
    [(.tstr, .inl .strD)]⟩

/-! ## Theorems -/

/-! ### Shared helper lemmas -/

@[simp]
theorem bind_ok_eq {α β : Type} (a : α) (f : α → Except PyErr β) :
    (do let x ← (Except.ok a : Except PyErr α); f x) = f a := rfl

@[simp]
theorem bind_error_eq {α β : Type} (e : PyErr) (f : α → Except PyErr β) :
    (do let x ← (Except.error e : Except PyErr α); f x) =
      (Except.error e : Except PyErr β) := rfl

theorem wrapTranslate_ok (m : I18NMessage) (locale : String)
    (x : Except PyErr String) (s : String) :
    wrapTranslate m locale x = .ok s ↔ x = .ok s := by
  cases x <;> simp [wrapTranslate]

theorem text_message_formatter_raises (t : String) :
    text_message_formatter t =
      .error (.typeError "TextFragment object is not iterable") := rfl

theorem applyS_ne_ok (st : MissingTextStrategy) (m : I18NMessage)
    (locale : String) (f : MessageFormatter) :
    MissingTextStrategy.applyS st m locale ≠ .ok f := by
  cases st with
  | failFast => simp [MissingTextStrategy.applyS]
  | logAndSub =>
      cases h : reprMsg m <;>
        simp [MissingTextStrategy.applyS, h, bind_ok_eq, bind_error_eq,
          text_message_formatter, mkMessageFormatter]

theorem processWith_length (disp : PyVal → Except PyErr String) :
    ∀ items strs, processWith disp items = .ok strs →
      strs.length = items.length := by
  intro items
  induction items with
  | nil => intro strs h; simp [processWith] at h; simp [← h]
  | cons it rest ih =>
      intro strs h
      simp only [processWith] at h
      cases hd : disp it with
      | error e => rw [hd, bind_error_eq] at h; simp at h
      | ok s =>
          rw [hd, bind_ok_eq] at h
          cases hr : processWith disp rest with
          | error e => rw [hr, bind_error_eq] at h; simp at h
          | ok rs =>
              rw [hr, bind_ok_eq] at h
              simp only [Except.ok.injEq] at h
              subst h
              simp [ih rs hr]

/-! ### C5: the `translate` error boundary -/

/-- C5: for every request, locale argument and catalog state, `translate`
either returns text or raises exactly the top-level
`I18nException('Error translating ...')` wrapper, carrying the original
request, the resolved effective locale, and the causing error as a
chained cause; no internal error escapes unwrapped. -/
theorem translate_error_boundary (fuel : Nat) (svc : Service)
    (m : I18NMessage) (loc : Option String) :
    (∃ s, translate fuel svc m loc = .ok s) ∨
    (∃ e, translate fuel svc m loc =
      .error (.i18nExc (.errorTranslating m (effectiveLocale svc m loc))
        (some e))) := by
  cases fuel with
  | zero => exact Or.inr ⟨.unmodelled "RecursionError", rfl⟩
  | succ n =>
      have hdef : translate (n + 1) svc m loc =
          wrapTranslate m (effectiveLocale svc m loc)
            (translateStep (fun m2 l2 => translate n svc m2 l2) n svc m
              (effectiveLocale svc m loc)) := rfl
      cases hstep : translateStep (fun m2 l2 => translate n svc m2 l2) n svc m
          (effectiveLocale svc m loc) with
      | ok s =>
          exact Or.inl ⟨s, by rw [hdef, hstep]; rfl⟩
      | error e =>
          exact Or.inr ⟨e, by rw [hdef, hstep]; rfl⟩

/-! ### C2: the Log-And-Substitute strategy raises instead of
substituting -/

/-- C2 counter-evidence: with the log-and-substitute strategy, a missing
key makes `translate` raise the wrapper around a `TypeError`:
`text_message_formatter` passes a bare `TextFragment` (not a list) to
`MessageFormatter.__init__`, whose `tuple(fragments)` call fails, so the
repr substitution never happens. -/
theorem log_and_substitute_raises :
    translate 5 svcBasicLog ⟨"missing.key", none, [], []⟩ none =
      .error (.i18nExc
        (.errorTranslating ⟨"missing.key", none, [], []⟩ "en_US")
        (some (.typeError "TextFragment object is not iterable"))) := rfl

/-! ### C7: `I18NMessage.__eq__` raises -/

/-- C7 counter-evidence: `m1 == m2` on two message requests raises
`TypeError` — `__eq__` is declared with only the `self` parameter, so the
two-argument call never runs the comparison the docstring describes. -/
theorem message_eq_raises_typeerror :
    I18NMessage.pyEq ⟨"k", none, [], []⟩ ⟨"k", none, [], []⟩ =
      .error (.typeError "eq takes 1 positional argument but 2 were given") :=
  rfl

/-! ### C8: number rendering -/

/-- C8: with the integer spec registered as `%d` and the float spec as
`%.2f` and no plural option, integers render as their exact decimal
digits including sign (arbitrary precision), and floats render with fixed
two-decimal rounding of the double's exact value: `0.0 → "0.00"`,
`3.1415 → "3.14"`, `3.145 → "3.15"`. -/
theorem number_rendering_spec (tr : Translator) (l : String)
    (hint : tr intMessage (some l) = .ok "%d")
    (hflt : tr floatMessage (some l) = .ok "%.2f") :
    (∀ n : Int, numberFormat tr l none (.vint n) = .ok (toString n)) ∧
    numberFormat tr l none (.vint 0) = .ok "0" ∧
    numberFormat tr l none (.vint (-1234)) = .ok "-1234" ∧
    numberFormat tr l none (.vint 123456789012345678901234567890) =
      .ok "123456789012345678901234567890" ∧
    numberFormat tr l none (.vfloat pyFloat_0) = .ok "0.00" ∧
    numberFormat tr l none (.vfloat pyFloat_3_1415) = .ok "3.14" ∧
    numberFormat tr l none (.vfloat pyFloat_3_145) = .ok "3.15" := by
  have hi : ∀ n : Int, numberFormat tr l none (.vint n) = .ok (toString n) := by
    intro n
    simp [numberFormat, isInstInt, hint, bind_ok_eq, pyMod]
  have hf : ∀ q, numberFormat tr l none (.vfloat q) = .ok (fmt2 q) := by
    intro q
    simp [numberFormat, isInstInt, hflt, bind_ok_eq, pyMod]
  refine ⟨hi, ?_, ?_, ?_, ?_, ?_, ?_⟩
  · rw [hi 0]; rfl
  · rw [hi (-1234)]; rfl
  · rw [hi 123456789012345678901234567890]; rfl
  · rw [hf pyFloat_0]; rfl
  · rw [hf pyFloat_3_1415]; rfl
  · rw [hf pyFloat_3_145]; rfl

/-- Witness for C8 at the `test_basics.py` catalog. -/
theorem number_rendering_spec_witness :
    numberFormat trBasic "en" none
        (.vint 123456789012345678901234567890) =
      .ok "123456789012345678901234567890" ∧
    numberFormat trBasic "en" none (.vfloat pyFloat_3_145) = .ok "3.15" := by
  have h := number_rendering_spec trBasic "en" rfl rfl
  exact ⟨h.2.2.2.1, h.2.2.2.2.2.2⟩

/-! ### C10: booleans dispatch to the number formatter -/

/-- C10: a boolean passes no built-in `can_handle` before the number
factory's `isinstance(inst, (int, float))`, so Formatter Dispatch selects
the number formatter; with the integer spec `%d`, `True` renders as `"1"`
and `False` as `"0"`. -/
theorem bool_renders_as_number (fuel : Nat) (tr : Translator) (l : String) :
    (∀ b : Bool,
      builtinDelegates.find? (fun d => builtinCanHandle d (.vbool b)) =
        some .numD) ∧
    (tr intMessage (some l) = .ok "%d" →
      dispatchValue (fuel + 1) tr l (.vbool true) [] = .ok "1" ∧
      dispatchValue (fuel + 1) tr l (.vbool false) [] = .ok "0") ∧
    translate 6 svcBasic ⟨"test_basics.number", none, [], [("n", .vbool true)]⟩
      none = .ok "1" ∧
    translate 6 svcBasic ⟨"test_basics.number", none, [], [("n", .vbool false)]⟩
      none = .ok "0" := by
  refine ⟨?_, ?_, rfl, rfl⟩
  · intro b; rfl
  · intro h
    have e1 : dispatchValue (fuel + 1) tr l (.vbool true) [] =
        numberFormat tr l none (.vbool true) := rfl
    have e0 : dispatchValue (fuel + 1) tr l (.vbool false) [] =
        numberFormat tr l none (.vbool false) := rfl
    rw [e1, e0]
    constructor <;> simp [numberFormat, isInstInt, h, bind_ok_eq, pyMod]

/-- Witness for C10 at the `test_basics.py` catalog. -/
theorem bool_renders_as_number_witness :
    dispatchValue 3 trBasic "en" (.vbool true) [] = .ok "1" ∧
    dispatchValue 3 trBasic "en" (.vbool false) [] = .ok "0" :=
  (bool_renders_as_number 2 trBasic "en").2.1 rfl

/-! ### C3: plural tag and lookup discipline -/

/-- C3: the plural tag is `0→zero`, `1→one`, `2→two`, else `other`; the
plural text is resolved by looking up `base + '.one'` first regardless of
the tag; a failed lookup is re-raised exactly when the tag is `'other'`
and is otherwise retried with `base + '.other'`; the final plural result
is the base rendering, a space, and the plural text. -/
theorem plural_lookup_spec (tr : Translator) (l b : String) :
    (∀ n : Int, plural_tag (.vint n) =
      if n = 0 then "zero" else if n = 1 then "one"
      else if n = 2 then "two" else "other") ∧
    (∀ tag t, tr ⟨b ++ ".one", none, [], []⟩ (some l) = .ok t →
      get_plural_message tr l (.vstr b) tag = .ok t) ∧
    (∀ tag e, tr ⟨b ++ ".one", none, [], []⟩ (some l) = .error e →
      e.isI18n = true →
      (tag = "other" → get_plural_message tr l (.vstr b) tag = .error e) ∧
      (tag ≠ "other" →
        get_plural_message tr l (.vstr b) tag =
          tr ⟨b ++ ".other", none, [], []⟩ (some l))) ∧
    (∀ v spec sbase text,
      tr (if isInstInt v then intMessage else floatMessage) (some l) =
        .ok spec →
      get_plural_message tr l (.vstr b) (plural_tag v) = .ok text →
      pyMod spec v = .ok sbase →
      numberFormat tr l (some (.vstr b)) v = .ok (sbase ++ " " ++ text)) := by
  refine ⟨?_, ?_, ?_, ?_⟩
  · intro n
    by_cases h0 : n = 0 <;> by_cases h1 : n = 1 <;> by_cases h2 : n = 2 <;>
      simp [plural_tag, numEqInt, h0, h1, h2]
  · intro tag t h
    simp [get_plural_message, h]
  · intro tag e h hi
    constructor
    · intro ht; simp [get_plural_message, h, hi, ht]
    · intro ht; simp [get_plural_message, h, hi, ht]
  · intro v spec sbase text h1 h2 h3
    simp [numberFormat, h1, h2, h3, bind_ok_eq]

/-- Witness for C3: at the `test_basics.py` catalog `plural(2)` resolves
`.one` (giving `"2 house"`), and with only `pl.other` registered the
`"two"` tag retries `.other` while the `"other"` tag re-raises. -/
theorem plural_lookup_spec_witness :
    get_plural_message trBasic "en" (.vstr "test_basics.plural") "two" =
      .ok "house" ∧
    get_plural_message trPluralOther "en" (.vstr "pl") "two" = .ok "things" ∧
    get_plural_message trPluralOther "en" (.vstr "pl") "other" =
      .error (.i18nExc (.errorTranslating ⟨"pl.one", none, [], []⟩ "en")
        (some (.i18nExc (.missingText "pl.one") none))) ∧
    numberFormat trBasic "en" (some (.vstr "test_basics.plural")) (.vint 2) =
      .ok "2 house" := by
  refine ⟨?_, ?_, ?_, ?_⟩
  · exact (plural_lookup_spec trBasic "en" "test_basics.plural").2.1 "two"
      "house" rfl
  · have h := ((plural_lookup_spec trPluralOther "en" "pl").2.2.1 "two"
      (.i18nExc (.errorTranslating ⟨"pl.one", none, [], []⟩ "en")
        (some (.i18nExc (.missingText "pl.one") none))) rfl rfl).2
      (by decide)
    rw [h]; rfl
  · exact ((plural_lookup_spec trPluralOther "en" "pl").2.2.1 "other"
      (.i18nExc (.errorTranslating ⟨"pl.one", none, [], []⟩ "en")
        (some (.i18nExc (.missingText "pl.one") none))) rfl rfl).1 rfl
  · exact (plural_lookup_spec trBasic "en" "test_basics.plural").2.2.2
      (.vint 2) "%d" "2" "house" rfl rfl rfl

/-! ### C6: list formatting -/

/-- C6: with the localized list messages available through the translate
callback, 0 items yield the `list.empty` text, 1 item yields the item's
own dispatched text, 2 items yield `head ++ joiner ++ tail` with the
and/or joiner selected by the `type` option (`and` when unset, `or` when
`type='or'`), and 3 or more items join all but the last with the comma
text and then the last with the and/or joiner. -/
theorem list_formatting_spec (disp : PyVal → Except PyErr String)
    (tr : Translator) (l : String) (options : List (String × PyVal)) :
    listFormatWith disp tr l options [] = tr emptyMessage (some l) ∧
    (∀ x s, disp x = .ok s → listFormatWith disp tr l options [x] = .ok s) ∧
    (dictLookup options "type" = none → typeOptionIsOr options = .ok false) ∧
    (dictLookup options "type" = some (.vstr "or") →
      typeOptionIsOr options = .ok true) ∧
    (∀ x y sx sy isOr j, disp x = .ok sx → disp y = .ok sy →
      typeOptionIsOr options = .ok isOr →
      tr (if isOr then orMessage else andMessage) (some l) = .ok j →
      listFormatWith disp tr l options [x, y] = .ok (sx ++ j ++ sy)) ∧
    (∀ items strs c isOr j, processWith disp items = .ok strs →
      3 ≤ items.length →
      tr commaMessage (some l) = .ok c →
      typeOptionIsOr options = .ok isOr →
      tr (if isOr then orMessage else andMessage) (some l) = .ok j →
      listFormatWith disp tr l options items =
        .ok (String.intercalate c strs.dropLast ++ j ++ strs.getLastD "")) := by
  refine ⟨?_, ?_, ?_, ?_, ?_, ?_⟩
  · simp [listFormatWith]
  · intro x s h
    simp [listFormatWith, processWith, h, bind_ok_eq]
  · intro h; simp [typeOptionIsOr, h]
  · intro h; simp [typeOptionIsOr, h]
  · intro x y sx sy isOr j hx hy hOr hj
    simp [listFormatWith, processWith, hx, hy, hOr, hj, bind_ok_eq]
  · intro items strs c isOr j hp hlen hc hOr hj
    have hlenS := processWith_length disp items strs hp
    have h0 : ¬ items.length = 0 := by omega
    have h1 : ¬ items.length = 1 := by omega
    have hgt : strs.dropLast.length > 1 := by
      rw [List.length_dropLast]; omega
    simp [listFormatWith, h0, h1, hp, hgt, hc, hOr, hj, bind_ok_eq]
    intro hle
    exfalso
    omega

/-- Witness for C6 at the `test_basics.py` catalog and locale `en`. -/
theorem list_formatting_spec_witness :
    listFormatWith dispBasic trBasic "en" [] [] = .ok "" ∧
    listFormatWith dispBasic trBasic "en" [] [.vstr "a"] = .ok "a" ∧
    listFormatWith dispBasic trBasic "en" [] [.vstr "a", .vstr "b"] =
      .ok "a and b" ∧
    listFormatWith dispBasic trBasic "en" [("type", .vstr "or")]
      [.vstr "a", .vstr "b"] = .ok "a or b" ∧
    listFormatWith dispBasic trBasic "en" []
      [.vstr "a", .vstr "b", .vstr "c"] = .ok "a, b and c" := by
  have h := list_formatting_spec dispBasic trBasic "en" []
  have hor := list_formatting_spec dispBasic trBasic "en"
    [("type", .vstr "or")]
  refine ⟨?_, ?_, ?_, ?_, ?_⟩
  · rw [h.1]; rfl
  · exact h.2.1 (.vstr "a") "a" rfl
  · exact h.2.2.2.2.1 (.vstr "a") (.vstr "b") "a" "b" false " and "
      rfl rfl rfl rfl
  · exact hor.2.2.2.2.1 (.vstr "a") (.vstr "b") "a" "b" true " or "
      rfl rfl rfl rfl
  · exact h.2.2.2.2.2 [.vstr "a", .vstr "b", .vstr "c"] ["a", "b", "c"]
      ", " false " and " rfl (by decide) rfl rfl rfl

/-! ### C1: nested requests are translated at the ambient locale

`I18nMessageFormatter.format` passes the ambient locale as `translate`'s
explicit locale argument, and the explicit argument takes precedence over
the request's preferred locale, so a nested request's own locale is
ignored. -/

theorem translate_ok_ignores_msg_locale (n : Nat) (svc : Service)
    (k : String) (lo lo' : Option String) (a : List PyVal)
    (kw : List (String × PyVal)) (l s : String)
    (h : translate n svc ⟨k, lo, a, kw⟩ (some l) = .ok s) :
    translate n svc ⟨k, lo', a, kw⟩ (some l) = .ok s := by
  cases n with
  | zero => simp [translate, wrapTranslate] at h
  | succ n =>
      have e1 : translate (n + 1) svc ⟨k, lo, a, kw⟩ (some l) =
          wrapTranslate ⟨k, lo, a, kw⟩ l
            (translateStep (fun m2 l2 => translate n svc m2 l2) n svc
              ⟨k, lo, a, kw⟩ l) := rfl
      have e2 : translate (n + 1) svc ⟨k, lo', a, kw⟩ (some l) =
          wrapTranslate ⟨k, lo', a, kw⟩ l
            (translateStep (fun m2 l2 => translate n svc m2 l2) n svc
              ⟨k, lo', a, kw⟩ l) := rfl
      rw [e1, wrapTranslate_ok] at h
      rw [e2, wrapTranslate_ok]
      simp only [translateStep, lookup_message] at h ⊢
      cases hf : (LocaleFallbackStrategy.apply (some svc.default_locale)
          (some l)).findSome?
          (fun lc => lookupSingleLocale svc.catalog k lc) with
      | some f =>
          rw [hf] at h
          exact h
      | none =>
          rw [hf] at h
          cases ha : MissingTextStrategy.applyS svc.strategy
              ⟨k, lo, a, kw⟩ l with
          | ok f => exact absurd ha (applyS_ne_ok _ _ _ _)
          | error e => rw [ha] at h; simp at h

/-- C1 counterexample: `greet` at ambient locale `en` renders a nested
`inner` request that carries preferred locale `de` using the *ambient*
locale (`"HELLO-EN"`), even though translating the nested request on its
own at its preferred locale yields `"HALLO-DE"`. -/
theorem nested_locale_counterexample :
    translate 3 svcNested msgNested (some "en") = .ok "HELLO-EN" ∧
    translate 3 svcNested ⟨"inner", some "de", [], []⟩ none =
      .ok "HALLO-DE" ∧
    "HELLO-EN" ≠ "HALLO-DE" := ⟨rfl, rfl, by decide⟩

/-- C1 amended: rendering a nested message argument invokes the owning
service's `translate` with the ambient locale as the *explicit* locale
argument, and with an explicit locale argument the request's preferred
locale cannot influence which text is produced — the nested request's own
preferred locale is always ignored during nested rendering. -/
theorem nested_message_uses_ambient_locale (fuel n : Nat) (tr : Translator)
    (svc : Service) (l k : String) (lo lo' : Option String)
    (a : List PyVal) (kw : List (String × PyVal)) :
    dispatchValue (fuel + 1) tr l (.vmsg k lo a kw) [] =
      tr ⟨k, lo, a, kw⟩ (some l) ∧
    (∀ s, translate n svc ⟨k, lo, a, kw⟩ (some l) = .ok s ↔
      translate n svc ⟨k, lo', a, kw⟩ (some l) = .ok s) := by
  constructor
  · rfl
  · intro s
    exact ⟨fun h => translate_ok_ignores_msg_locale n svc k lo lo' a kw l s h,
      fun h => translate_ok_ignores_msg_locale n svc k lo' lo a kw l s h⟩

/-- Witness for C1's amended statement: the nested `color` dispatch is the
ambient-locale translate call, and the nested-scenario request translates
identically with and without its preferred locale once an explicit locale
is given. -/
theorem nested_message_uses_ambient_locale_witness :
    dispatchValue 3 trBasic "en_US"
        (.vmsg "test_basics.color" (some "en") [] []) [] =
      trBasic ⟨"test_basics.color", some "en", [], []⟩ (some "en_US") ∧
    translate 3 svcNested ⟨"inner", some "de", [], []⟩ (some "en") =
      .ok "HELLO-EN" := by
  refine ⟨(nested_message_uses_ambient_locale 2 3 trBasic svcNested "en_US"
    "test_basics.color" (some "en") none [] []).1, ?_⟩
  exact (nested_message_uses_ambient_locale 2 3 trBasic svcNested "en"
    "inner" (some "de") none [] []).2 "HELLO-EN" |>.mpr rfl

/-! ### C9: the dispatch cache is a transparent memoization -/

theorem builtinCanHandle_eq_type (d : BuiltinDelegate) (v : PyVal) :
    builtinCanHandle d v = builtinCanType d v.typeOf := by
  cases d <;> cases v <;> rfl

theorem builtin_typeDetermined : TypeDetermined builtinCanHandle := by
  intro d v w h
  rw [builtinCanHandle_eq_type, builtinCanHandle_eq_type, h]

theorem sumCanH_typeDetermined : TypeDetermined sumCanH := by
  intro d v w h
  cases d with
  | inl b =>
      show builtinCanHandle b v = builtinCanHandle b w
      exact builtin_typeDetermined b v w h
  | inr e => simp [sumCanH, h]

theorem cacheGet_mem {δ : Type} (c : List (PyType × δ)) (t : PyType)
    (d : δ) (h : cacheGet c t = some d) : (t, d) ∈ c := by
  unfold cacheGet at h
  cases hf : c.find? (fun p => p.1 == t) with
  | none => rw [hf] at h; simp at h
  | some p =>
      rw [hf] at h
      simp only [Option.map] at h
      have hp := List.find?_some hf
      have hmem := List.mem_of_find?_eq_some hf
      have ht : p.1 = t := by simpa using hp
      have : p = (t, d) := by
        cases p
        simp_all
      rwa [this] at hmem

/-- C9: a cache hit returns the memoized factory with the state unchanged,
also after further registrations (which only append to the delegate
list); a cache miss resolves by the first-match scan; and for
type-determined `can_handle` predicates the selection always equals the
first-match scan, coherence of the cache is preserved by both selection
and registration, and the built-in table is itself type-determined (with
the four built-ins first in the initial state). -/
theorem dispatch_cache_spec {δ : Type} (canH : δ → PyVal → Bool)
    (s : FactoryState δ) (v : PyVal) :
    (∀ d, cacheGet s.cache v.typeOf = some d →
      selectFactory canH s v = (some d, s) ∧
      ∀ ds, selectFactory canH (s.registerExt ds) v =
        (some d, s.registerExt ds)) ∧
    (cacheGet s.cache v.typeOf = none →
      (selectFactory canH s v).1 =
        s.delegates.find? (fun d => canH d v)) ∧
    (TypeDetermined canH → CacheCoherent canH s →
      (selectFactory canH s v).1 =
        s.delegates.find? (fun d => canH d v) ∧
      CacheCoherent canH (selectFactory canH s v).2 ∧
      ∀ ds, CacheCoherent canH (s.registerExt ds)) ∧
    initialFactoryState.delegates = builtinDelegates ∧
    TypeDetermined builtinCanHandle := by
  refine ⟨?_, ?_, ?_, rfl, builtin_typeDetermined⟩
  · intro d h
    constructor
    · simp [selectFactory, h]
    · intro ds
      simp [selectFactory, FactoryState.registerExt, h]
  · intro h
    cases hf : s.delegates.find? (fun d => canH d v) with
    | some d => simp [selectFactory, h, hf]
    | none => simp [selectFactory, h, hf]
  · intro htd hcoh
    have hreg : ∀ ds, CacheCoherent canH (s.registerExt ds) := by
      intro ds t d hmem w hw
      have := hcoh t d hmem w hw
      show (s.delegates ++ ds).find? (fun e => canH e w) = some d
      rw [List.find?_append, this]
      rfl
    refine ⟨?_, ?_, hreg⟩
    · cases hcg : cacheGet s.cache v.typeOf with
      | some d =>
          have hmem := cacheGet_mem s.cache v.typeOf d hcg
          have hfind := hcoh v.typeOf d hmem v rfl
          simp [selectFactory, hcg, hfind]
      | none =>
          cases hf : s.delegates.find? (fun d => canH d v) with
          | some d => simp [selectFactory, hcg, hf]
          | none => simp [selectFactory, hcg, hf]
    · cases hcg : cacheGet s.cache v.typeOf with
      | some d =>
          simp only [selectFactory, hcg]
          exact hcoh
      | none =>
          cases hf : s.delegates.find? (fun d => canH d v) with
          | some d =>
              simp only [selectFactory, hcg, hf]
              intro t d' hmem w hw
              rcases List.mem_cons.mp hmem with heq | hold
              · cases heq
                have : (fun e => canH e w) = (fun e => canH e v) := by
                  funext e
                  exact htd e w v hw
                rw [this]
                exact hf
              · exact hcoh t d' hold w hw
          | none =>
              simp only [selectFactory, hcg, hf]
              exact hcoh

/-- Witness for C9: a cache hit (also after registering an extension), a
cache miss resolving an extension-handled type by scan, and preserved
coherence, at concrete states. -/
theorem dispatch_cache_spec_witness :
    selectFactory sumCanH stateStrCached (.vstr "x") =
      (some (.inl .strD), stateStrCached) ∧
    selectFactory sumCanH (stateStrCached.registerExt [.inr 7]) (.vstr "x") =
      (some (.inl .strD), stateStrCached.registerExt [.inr 7]) ∧
    (selectFactory sumCanH stateEmptyCache (.vdict [])).1 =
      stateEmptyCache.delegates.find? (fun d => sumCanH d (.vdict [])) ∧
    (selectFactory sumCanH stateEmptyCache (.vdict [])).1 = some (.inr 0) ∧
    CacheCoherent sumCanH (selectFactory sumCanH stateEmptyCache
      (.vdict [])).2 := by
  have ha := (dispatch_cache_spec sumCanH stateStrCached (.vstr "x")).1
    (.inl .strD) rfl
  have hc := (dispatch_cache_spec sumCanH stateEmptyCache (.vdict [])).2.2.1
    sumCanH_typeDetermined
    (by intro t d hmem w hw; simp [stateEmptyCache] at hmem)
  refine ⟨ha.1, ha.2 [.inr 7], hc.1, ?_, hc.2.1⟩
  rw [hc.1]
  rfl

/-! ### C4: the locale fallback chain -/

theorem beforeLastUnderscore_length :
    ∀ cs pre, beforeLastUnderscore cs = some pre → pre.length < cs.length := by
  intro cs
  induction cs with
  | nil => intro pre h; simp [beforeLastUnderscore] at h
  | cons c rest ih =>
      intro pre h
      simp only [beforeLastUnderscore] at h
      cases hrec : beforeLastUnderscore rest with
      | some tail =>
          rw [hrec] at h
          cases h
          have := ih tail hrec
          simp only [List.length_cons]
          omega
      | none =>
          rw [hrec] at h
          by_cases hc : c = '_'
          · simp only [hc, if_pos rfl] at h
            cases h
            simp
          · simp [hc] at h

theorem beforeLastUnderscore_none_iff (cs : List Char) :
    beforeLastUnderscore cs = none ↔ '_' ∉ cs := by
  induction cs with
  | nil => simp [beforeLastUnderscore]
  | cons c rest ih =>
      simp only [beforeLastUnderscore]
      cases hrec : beforeLastUnderscore rest with
      | some tail =>
          simp only []
          constructor
          · intro h; cases h
          · intro h
            exfalso
            have : '_' ∈ rest := by
              by_contra hn
              rw [← ih] at hn
              rw [hn] at hrec
              cases hrec
            exact h (List.mem_cons_of_mem c this)
      | none =>
          have hnr : '_' ∉ rest := ih.mp hrec
          by_cases hc : c = '_'
          · simp [hc]
          · simp [hc, hnr, List.mem_cons]
            intro h
            exact hc h.symm

theorem beforeLastUnderscore_decomp :
    ∀ cs pre, beforeLastUnderscore cs = some pre →
      ∃ last, cs = pre ++ '_' :: last ∧ '_' ∉ last := by
  intro cs
  induction cs with
  | nil => intro pre h; simp [beforeLastUnderscore] at h
  | cons c rest ih =>
      intro pre h
      simp only [beforeLastUnderscore] at h
      cases hrec : beforeLastUnderscore rest with
      | some tail =>
          rw [hrec] at h
          cases h
          obtain ⟨last, hrest, hnot⟩ := ih tail hrec
          exact ⟨last, by rw [hrest]; rfl, hnot⟩
      | none =>
          rw [hrec] at h
          by_cases hc : c = '_'
          · simp only [hc, if_pos rfl] at h
            cases h
            exact ⟨rest, by rw [hc]; rfl,
              (beforeLastUnderscore_none_iff rest).mp hrec⟩
          · simp [hc] at h

theorem modifyHead_append {α : Type} (f : α → α) (xs ys : List α)
    (hxs : xs ≠ []) :
    (xs ++ ys).modifyHead f = xs.modifyHead f ++ ys := by
  cases xs with
  | nil => exact absurd rfl hxs
  | cons a as => simp

theorem splitOn_no_sep (cs : List Char) (h : '_' ∉ cs) :
    cs.splitOn '_' = [cs] := by
  rw [List.splitOn]
  refine List.splitOnP_eq_single _ _ ?_
  intro x hx hpx
  rw [beq_iff_eq] at hpx
  subst hpx
  exact h hx

theorem splitOn_append_last (pre last : List Char) (h : '_' ∉ last) :
    (pre ++ '_' :: last).splitOn '_' = pre.splitOn '_' ++ [last] := by
  have hsingle : (last.splitOnP fun x => x == '_') = [last] := by
    apply List.splitOnP_eq_single
    intro x hx hpx
    rw [beq_iff_eq] at hpx
    subst hpx
    exact h hx
  induction pre with
  | nil =>
      simp [List.splitOn, List.splitOnP_cons, hsingle]
  | cons c pre ih =>
      simp only [List.cons_append, List.splitOn, List.splitOnP_cons] at *
      by_cases hc : c = '_'
      · simp [hc, ih]
      · have hbc : (c == '_') = false := by simp [hc]
        simp only [hbc, if_neg, Bool.false_eq_true, not_false_eq_true, ih]
        rw [modifyHead_append _ _ _ (List.splitOnP_ne_nil _ _)]

theorem splitLocaleGo_eq_spec :
    ∀ n cs, cs.length < n →
      splitLocaleGo n cs =
        (List.range ((cs.splitOn '_').length)).reverse.map
          (fun k => List.intercalate ['_'] ((cs.splitOn '_').take (k + 1))) := by
  intro n
  induction n with
  | zero => intro cs h; omega
  | succ n ih =>
      intro cs hlt
      rw [splitLocaleGo]
      cases hb : beforeLastUnderscore cs with
      | none =>
          have hnotin : '_' ∉ cs := (beforeLastUnderscore_none_iff cs).mp hb
          rw [splitOn_no_sep cs hnotin]
          simp [List.intercalate]
      | some pre =>
          obtain ⟨last, hcs, hnl⟩ := beforeLastUnderscore_decomp cs pre hb
          have hlen := beforeLastUnderscore_length cs pre hb
          have ihpre := ih pre (by omega)
          show cs :: splitLocaleGo n pre = _
          rw [ihpre]
          subst hcs
          rw [splitOn_append_last pre last hnl]
          have hne := List.splitOnP_ne_nil (fun x => x == '_') pre
          have hN : 1 ≤ (pre.splitOn '_').length := by
            rw [List.splitOn]
            cases hsp : pre.splitOnP (fun x => x == '_') with
            | nil => exact absurd hsp hne
            | cons a as => simp
          rw [List.length_append, List.length_singleton, List.range_succ,
            List.reverse_append, List.reverse_singleton, List.singleton_append,
            List.map_cons]
          congr 1
          · rw [List.take_of_length_le (by simp)]
            rw [← splitOn_append_last pre last hnl]
            exact Eq.symm (List.intercalate_splitOn (pre ++ '_' :: last) '_')
          · apply List.map_congr_left
            intro k hk
            rw [List.mem_reverse, List.mem_range] at hk
            rw [List.take_append_of_le_length (by omega)]

theorem splitLocale_eq_specTruncations (s : String) :
    splitLocale (some s) = specTruncations s := by
  show (splitLocaleGo (s.toList.length + 1) s.toList).map
    (fun cs => String.mk cs) = _
  rw [splitLocaleGo_eq_spec (s.toList.length + 1) s.toList (by omega)]
  rw [List.map_map]
  rfl

/-- C4: the fallback chain for `(default, requested)` is exactly the
successive `_`-truncations of the requested locale from most to least
specific (spec-side `splitOn` formulation), followed by the successive
truncations of the default locale, with no deduplication; in particular
`('en_US', 'de_CH') ↦ ['de_CH','de','en_US','en']` and
`('en', 'en') ↦ ['en','en']`. -/
theorem fallback_chain_spec :
    (∀ d r : String, LocaleFallbackStrategy.apply (some d) (some r) =
      specTruncations r ++ specTruncations d) ∧
    LocaleFallbackStrategy.apply (some "en_US") (some "de_CH") =
      ["de_CH", "de", "en_US", "en"] ∧
    LocaleFallbackStrategy.apply (some "en") (some "en") = ["en", "en"] := by
  refine ⟨fun d r => ?_, rfl, rfl⟩
  unfold LocaleFallbackStrategy.apply
  rw [splitLocale_eq_specTruncations, splitLocale_eq_specTruncations]

end Pdark
